import Mathlib

/-!
Shallow embedding of the query/filter engine of `eta/core/cli.py` (the
`eta` CLI's search, sort and limit pipeline over metadata records) and of
the directory-sync planning described by the specification.

All string manipulation is modelled on `List Char`, mirroring Python `str`
operations character by character (the inputs of interest are ASCII).
-/

namespace Eta

/-- Python `needle in hay` prefix step: does `hay` start with `needle`? -/
def leadMatch : List Char → List Char → Bool
  | [], _ => true
  | _ :: _, [] => false
  | a :: as, b :: bs => a == b && leadMatch as bs

/-- Python substring test `needle in hay` on character lists. -/
def containsSub (needle : List Char) : List Char → Bool
  | [] => needle.isEmpty
  | c :: rest => leadMatch needle (c :: rest) || containsSub needle rest

/-- Python `usr in rec` for strings (substring containment). -/
def pyIn (usr rec : String) : Bool :=
  containsSub usr.data rec.data

/-- ASCII lower-casing of one character, as Python `str.lower` does on ASCII. -/
def charLower (c : Char) : Char :=
  if 'A' ≤ c && c ≤ 'Z' then Char.ofNat (c.toNat + 32) else c

/-- Python `str.lower()` (ASCII fragment). -/
def pyLower (s : String) : String :=
  (s.data.map charLower).asString

/-- Python whitespace characters stripped by `str.strip()`. -/
def pySpace (c : Char) : Bool :=
  c == ' ' || c == '\t' || c == '\n' || c == '\r' || c == '\x0b' || c == '\x0c'

/-- Python `str.strip()`: drop leading and trailing whitespace. -/
def pyStrip (s : String) : String :=
  (((s.data.dropWhile pySpace).reverse.dropWhile pySpace).reverse).asString

/-- Python `str.replace(" ", "_")`: single-character global replacement. -/
def replaceSpaces (s : String) : String :=
  (s.data.map (fun c => if c == ' ' then '_' else c)).asString

/-- `key.lower().strip().replace(" ", "_")` — the field-name normalization
used by both `_make_match_fcn` and the sort-by lookup in `_filter_records`. -/
def pyNormalize (s : String) : String :=
  replaceSpaces (pyStrip (pyLower s))

/-- Lexicographic comparison of character lists by code point, as Python
compares `str` values. -/
def charListLt : List Char → List Char → Bool
  | [], [] => false
  | [], _ :: _ => true
  | _ :: _, [] => false
  | a :: as, b :: bs => if a < b then true else if b < a then false else charListLt as bs

/-- Python `a < b` on strings. -/
def pyStrLt (a b : String) : Bool :=
  charListLt a.data b.data

/-- Python `a <= b` on strings. -/
def pyStrLe (a b : String) : Bool :=
  pyStrLt a b || a == b

/-- Prepend a character to the head chunk of a chunk list (helper for the
`re.split` model). -/
def consHead (c : Char) : List (List Char) → List (List Char)
  | [] => [[c]]
  | l :: ls => (c :: l) :: ls

/-- Model of `re.split("(?<!\\\\)([" + chars + "]+)", s, maxsplit)` as used by
`_split_on_chars`: scan left to right; a maximal run of characters from
`chars` whose first character is not preceded by a backslash is one
delimiter; the result alternates text chunk, delimiter chunk, text chunk, …
`splits` is the number of splits still allowed; `inRun` tells whether the
scan is currently inside a delimiter run (the lookbehind is only tested at
the start of a run, exactly as in the regex). -/
def goSplit (chars : List Char) : List Char → Option Char → Nat → Bool → List (List Char)
  | [], _, _, inRun => if inRun then [[], []] else [[]]
  | c :: rest, _, splits, true =>
    if chars.contains c then
      consHead c (goSplit chars rest (some c) splits true)
    else
      -- the delimiter run ends; `c ∉ chars`, so `c` is plain text
      [] :: consHead c (goSplit chars rest (some c) splits false)
  | c :: rest, prev, splits, false =>
    if splits != 0 && chars.contains c && prev != some '\\' then
      [] :: consHead c (goSplit chars rest (some c) (splits - 1) true)
    else
      consHead c (goSplit chars rest (some c) splits false)

/-- `re.split` with the pattern of `_split_on_chars`: `maxSplits = 0` means
unlimited (as for `re.split`); the result keeps the captured delimiters. -/
def pyReSplit (chars : List Char) (maxSplits : Nat) (s : List Char) : List (List Char) :=
  goSplit chars s none (if maxSplits = 0 then s.length + 1 else maxSplits) false

/-- `chunks[::2]` — every other element starting with the first. -/
def everyOther {α : Type} : List α → List α
  | [] => []
  | [a] => [a]
  | a :: _ :: rest => a :: everyOther rest

/-- `_split_on_chars(s, chars, max_splits, keep_delimiters)` from
`eta/core/cli.py`: split on unescaped runs of `chars`; keep the delimiter
chunks only when requested. -/
def split_on_chars (s : String) (chars : String) (maxSplits : Nat) (keepDelimiters : Bool) : List String :=
  let chunks := (pyReSplit chars.data maxSplits s.data).map List.asString
  if keepDelimiters then chunks else everyOther chunks

/-- Model of `re.sub("\\\\(,|:|=|<|>)", "\\1", s)`: replace each
backslash-escaped occurrence of a character from `chars` by the bare
character, scanning left to right without overlap. -/
def removeEscapes (chars : List Char) : List Char → List Char
  | [] => []
  | ['\\'] => ['\\']
  | '\\' :: c :: rest =>
    if chars.contains c then c :: removeEscapes chars rest
    else '\\' :: removeEscapes chars (c :: rest)
  | c :: rest => c :: removeEscapes chars rest

/-- The escapable characters of the query grammar (`",:=<>"`). -/
def escChars : List Char := [',', ':', '=', '<', '>']

/-- `_remove_escapes(s, ",:=<>")` from `eta/core/cli.py`. -/
def remove_escapes (s : String) : String :=
  (removeEscapes escChars s.data).asString

/-- The cleanup applied to every clause value:
`_remove_escapes(value, ",:=<>").strip()`. -/
def cleanValue (value : String) : String :=
  pyStrip (remove_escapes value)

/-- Escape every grammar-special character of a text with a backslash (the
inverse direction of `remove_escapes`, used to state the round-trip
properties of the escaping rules). -/
def escapeAll : List Char → List Char
  | [] => []
  | c :: rest => (if escChars.contains c then ['\\', c] else [c]) ++ escapeAll rest

/-- A Python `datetime`: a wall-clock reading in seconds together with an
optional UTC offset in seconds (`none` models a naive datetime). -/
structure PyDatetime where
  wall : Int
  offset : Option Int
  deriving DecidableEq, Repr

/-- The absolute instant of a datetime (naive datetimes are only compared
after `astimezone` has made them aware). -/
def PyDatetime.instant (d : PyDatetime) : Int :=
  d.wall - d.offset.getD 0

/-- The process's local timezone (`tzlocal.get_localzone()`): a fixed UTC
offset in seconds and the abbreviation `strftime("%Z")` prints. -/
structure TZInfo where
  offset : Int
  name : String
  deriving DecidableEq, Repr

/-- `dt.astimezone(local)` for a local zone at UTC offset `tz` seconds: a
naive datetime is presumed to already read local wall-clock time; an aware
one is converted to the same instant expressed in the local zone. -/
def astimezoneLocal (d : PyDatetime) (tz : Int) : PyDatetime :=
  match d.offset with
  | none => { wall := d.wall, offset := some tz }
  | some o => { wall := d.wall - o + tz, offset := some tz }

/-- Days since 1970-01-01 of the civil date `(y, m, d)` (Hinnant's
`days_from_civil`, written with C-style truncating division). -/
def daysFromCivil (y m d : Int) : Int :=
  let yy := y - (if m ≤ 2 then 1 else 0)
  let era := (if 0 ≤ yy then yy else yy - 399).tdiv 400
  let yoe := yy - era * 400
  let doy := ((153 * (m + (if 2 < m then -3 else 9)) + 2).tdiv 5) + d - 1
  let doe := yoe * 365 + yoe.tdiv 4 - yoe.tdiv 100 + doy
  era * 146097 + doe - 719468

/-- Civil date of a count of days since 1970-01-01 (Hinnant's
`civil_from_days`). -/
def civilFromDays (z0 : Int) : Int × Int × Int :=
  let z := z0 + 719468
  let era := (if 0 ≤ z then z else z - 146096).tdiv 146097
  let doe := z - era * 146097
  let yoe := (doe - doe.tdiv 1460 + doe.tdiv 36524 - doe.tdiv 146096).tdiv 365
  let y := yoe + era * 400
  let doy := doe - (365 * yoe + yoe.tdiv 4 - yoe.tdiv 100)
  let mp := (5 * doy + 2).tdiv 153
  let d := doy - (153 * mp + 2).tdiv 5 + 1
  let m := mp + (if mp < 10 then 3 else -9)
  (y + (if m ≤ 2 then 1 else 0), m, d)

/-- `c` as a decimal digit, if it is one. -/
def digitVal (c : Char) : Option Nat :=
  if '0' ≤ c && c ≤ '9' then some (c.toNat - '0'.toNat) else none

/-- Read exactly `n` decimal digits from the front of the list. -/
def takeDigitsAux : Nat → Nat → List Char → Option (Nat × List Char)
  | 0, acc, rest => some (acc, rest)
  | _ + 1, _, [] => none
  | n + 1, acc, c :: rest =>
    match digitVal c with
    | some d => takeDigitsAux n (acc * 10 + d) rest
    | none => none

/-- Read exactly `n` decimal digits as a number. -/
def takeDigits (n : Nat) (l : List Char) : Option (Nat × List Char) :=
  takeDigitsAux n 0 l

/-- Consume one expected character. -/
def expectChar (c : Char) : List Char → Option (List Char)
  | x :: rest => if x == c then some rest else none
  | [] => none

/-- Optional `":SS"` seconds component (0 when absent). -/
def parseOptSeconds : List Char → Option (Nat × List Char)
  | ':' :: rest =>
    (takeDigits 2 rest).bind (fun p => if p.1 < 60 then some p else none)
  | r => some (0, r)

/-- Trailing ISO-8601 offset: empty (naive), `Z`, or `±HH:MM`; returns the
offset in seconds. -/
def parseOffsetEnd : List Char → Option (Option Int)
  | [] => some none
  | ['Z'] => some (some 0)
  | c :: rest =>
    if c == '+' || c == '-' then
      match takeDigits 2 rest with
      | some (oh, ':' :: r2) =>
        match takeDigits 2 r2 with
        | some (om, []) =>
          if oh < 24 && om < 60 then
            some (some ((if c == '-' then -1 else 1) * (Int.ofNat oh * 3600 + Int.ofNat om * 60)))
          else none
        | _ => none
      | _ => none
    else none

/-- `dateutil.parser.isoparse` (an external library), modelled on the common
ISO-8601 core it accepts: `YYYY-MM-DD`, optionally followed by `T` or a
space and `HH:MM[:SS]`, optionally followed by `Z` or `±HH:MM`. A literal
with an explicit offset parses to an aware datetime carrying that offset;
one without parses to a naive datetime. -/
def isoparse (s : String) : Option PyDatetime := do
  let (y, r) ← takeDigits 4 s.data
  let r ← expectChar '-' r
  let (mo, r) ← takeDigits 2 r
  let r ← expectChar '-' r
  let (d, r) ← takeDigits 2 r
  if mo < 1 || 12 < mo || d < 1 || 31 < d then none else
  let dayWall := daysFromCivil (Int.ofNat y) (Int.ofNat mo) (Int.ofNat d) * 86400
  match r with
  | [] => some ⟨dayWall, none⟩
  | sep :: r1 =>
    if sep != 'T' && sep != ' ' then none else do
    let (h, r2) ← takeDigits 2 r1
    let r2 ← expectChar ':' r2
    let (mi, r3) ← takeDigits 2 r2
    if 23 < h || 59 < mi then none else do
    let (sec, r4) ← parseOptSeconds r3
    let off ← parseOffsetEnd r4
    some ⟨dayWall + Int.ofNat h * 3600 + Int.ofNat mi * 60 + Int.ofNat sec, off⟩

/-- The argument of `_parse_datetime`: a `datetime` value or an ISO-8601
string (the code accepts both). -/
inductive DtOrStr where
  | dt (d : PyDatetime)
  | str (s : String)
  deriving DecidableEq, Repr

/-- `_parse_datetime(datetime_or_str)` from `eta/core/cli.py`: strings go
through `dateutil.parser.isoparse`; the result is converted to the local
timezone with `astimezone(get_localzone())`. `none` models the exception
dateutil raises on an unparsable literal. -/
def parse_datetime (x : DtOrStr) (tz : Int) : Option PyDatetime :=
  match x with
  | .dt d => some (astimezoneLocal d tz)
  | .str s => (isoparse s).map (fun d => astimezoneLocal d tz)

/-- Zero-padded two-digit field. -/
def pad2 (n : Int) : String :=
  (if n < 10 then "0" else "") ++ toString n

/-- Zero-padded four-digit year. -/
def pad4 (n : Int) : String :=
  (if n < 10 then "000" else if n < 100 then "00" else if n < 1000 then "0" else "") ++ toString n

/-- `strftime("%Y-%m-%d %H:%M:%S")` of a wall-clock reading in seconds. -/
def fmtWall (wall : Int) : String :=
  let sod := wall % 86400
  let days := (wall - sod) / 86400
  let c := civilFromDays days
  pad4 c.1 ++ "-" ++ pad2 c.2.1 ++ "-" ++ pad2 c.2.2 ++ " " ++
    pad2 (sod / 3600) ++ ":" ++ pad2 ((sod % 3600) / 60) ++ ":" ++ pad2 (sod % 60)

/-- `_render_datetime(dt)` from `eta/core/cli.py`:
`_parse_datetime(dt).strftime("%Y-%m-%d %H:%M:%S %Z")`. -/
def render_datetime (x : DtOrStr) (tz : TZInfo) : Option String :=
  (parse_datetime x tz.offset).map (fun d => fmtWall d.wall ++ " " ++ tz.name)

/-- The comparison relations of `_SEARCH_COMPARISON_OPERATORS`
(`operator.eq`, `operator.lt`, …), always invoked as `op(usr, rec)`. -/
inductive CmpOp where
  | eq | lt | le | gt | ge
  deriving DecidableEq, Repr

/-- A comparison relation applied to two integers (byte counts, instants). -/
def CmpOp.applyInt : CmpOp → Int → Int → Bool
  | .eq, a, b => a == b
  | .lt, a, b => decide (a < b)
  | .le, a, b => decide (a ≤ b)
  | .gt, a, b => decide (b < a)
  | .ge, a, b => decide (b ≤ a)

/-- A comparison relation applied to two strings (Python's code-point
lexicographic order). -/
def CmpOp.applyStr : CmpOp → String → String → Bool
  | .eq, a, b => a == b
  | .lt, a, b => pyStrLt a b
  | .le, a, b => pyStrLe a b
  | .gt, a, b => pyStrLt b a
  | .ge, a, b => pyStrLe b a

/-- `_SEARCH_COMPARISON_OPERATORS` from `eta/core/cli.py`. The mapping is
deliberately inverted: the clause `field<value` is evaluated as
`op(usr, rec)` with `op = operator.gt`, i.e. `value > field`. -/
def searchCompOp : String → Option CmpOp
  | "==" => some .eq
  | "<" => some .gt
  | "<=" => some .ge
  | ">" => some .lt
  | ">=" => some .le
  | _ => none

/-- `DatetimeSearcher.compare(usr, rec, op)` from `eta/core/cli.py`:
`rec_dt = _parse_datetime(rec)`, `usr_dt = _parse_datetime(usr)`, then
`op(usr_dt, rec_dt)` (Python compares aware datetimes by instant). An
unparsable literal raises in Python, aborting the query; no claim
exercises that path and it is modelled as no-match. -/
def datetimeSearcherCompare (usr : String) (rec : DtOrStr) (op : CmpOp) (tz : Int) : Bool :=
  match parse_datetime rec tz, parse_datetime (.str usr) tz with
  | some recDt, some usrDt => op.applyInt usrDt.instant recDt.instant
  | _, _ => false

/-- Largest byte unit (0 = B, 1 = KB, …, 4 = TB) not exceeding `n`. -/
def byteUnitIndex (n : Int) : Nat :=
  if n < 1024 then 0
  else if n < 1024 ^ 2 then 1
  else if n < 1024 ^ 3 then 2
  else if n < 1024 ^ 4 then 3
  else 4

/-- Byte unit suffixes. -/
def byteUnitName : Nat → String
  | 0 => "B"
  | 1 => "KB"
  | 2 => "MB"
  | 3 => "GB"
  | _ => "TB"

/-- Modelled from the spec: `eta.core.utils.to_human_bytes_str`
(`eta/core/utils.py` is not under `src/`). Per §4.1/§6, a non-negative byte
count is rendered human-readably (e.g. `"12.3 MB"`): the largest unit in
B/KB/MB/GB/TB (powers of 1024) not exceeding the value, one decimal digit,
trailing `.0` omitted. -/
def toHumanBytesStr (n : Int) : String :=
  let k := byteUnitIndex n
  let x10 := n * 10 / (1024 : Int) ^ k
  toString (x10 / 10) ++ (if x10 % 10 == 0 then "" else "." ++ toString (x10 % 10)) ++
    " " ++ byteUnitName k

/-- `_render_bytes(size)` from `eta/core/cli.py`: `None` or a negative size
renders as `"-"`, otherwise `etau.to_human_bytes_str(size)`. -/
def render_bytes (size : Option Int) : String :=
  match size with
  | none => "-"
  | some n => if n < 0 then "-" else toHumanBytesStr n

/-- Run of leading decimal digits. -/
def spanDigits (l : List Char) : List Char × List Char :=
  (l.takeWhile (fun c => (digitVal c).isSome), l.dropWhile (fun c => (digitVal c).isSome))

/-- Decimal digits to a number. -/
def digitsToNat (l : List Char) : Nat :=
  l.foldl (fun a c => a * 10 + (c.toNat - '0'.toNat)) 0

/-- Optional `.digits` fractional part. -/
def splitFrac : List Char → Option (List Char × List Char)
  | '.' :: rest =>
    let f := rest.takeWhile (fun c => (digitVal c).isSome)
    if f.isEmpty then none
    else some (f, rest.dropWhile (fun c => (digitVal c).isSome))
  | r => some ([], r)

/-- Lower-cased unit suffix to its power of 1024. -/
def unitPow : List Char → Option Nat
  | [] => some 0
  | ['b'] => some 0
  | ['k'] => some 1
  | ['k', 'b'] => some 1
  | ['m'] => some 2
  | ['m', 'b'] => some 2
  | ['g'] => some 3
  | ['g', 'b'] => some 3
  | ['t'] => some 4
  | ['t', 'b'] => some 4
  | _ => none

/-- Modelled from the spec: `eta.core.utils.from_human_bytes_str`
(`eta/core/utils.py` is not under `src/`). Per §6, a human-readable
byte-size expression is a decimal number (fraction allowed) followed by an
optional unit suffix (B, K/KB, M/MB, G/GB, T/TB; case-insensitive, powers
of 1024, optional whitespace before the unit), converted to an integer
byte count. `none` models the parse error (fatal for the query). -/
def fromHumanBytesStr (s : String) : Option Int := do
  let l := (pyStrip s).data.map charLower
  let (ip, r) := spanDigits l
  if ip.isEmpty then none else do
  let (fp, r2) ← splitFrac r
  let k ← unitPow (r2.dropWhile pySpace)
  let den := 10 ^ fp.length
  some (Int.ofNat ((digitsToNat ip * den + digitsToNat fp) * 1024 ^ k / den))

/-- A metadata record field value: a string, an optional byte count
(`None` for unknown sizes), or a timestamp. -/
inductive Value where
  | vstr (s : String)
  | vsize (n : Option Int)
  | vdt (d : PyDatetime)
  deriving DecidableEq, Repr

/-- A `±HH:MM` UTC-offset suffix as Python prints it. -/
def offsetSuffix (o : Int) : String :=
  let a := if o < 0 then -o else o
  (if o < 0 then "-" else "+") ++ pad2 (a / 3600) ++ ":" ++ pad2 ((a % 3600) / 60)

/-- Python `str()` of a record field value (`StringSearcher` applies it to
whatever value its field holds). -/
def pyStr : Value → String
  | .vstr s => s
  | .vsize none => "None"
  | .vsize (some n) => toString n
  | .vdt d => fmtWall d.wall ++ (match d.offset with | none => "" | some o => offsetSuffix o)

/-- A metadata record, a Python dict: association list with unique keys in
insertion order. -/
abbrev Record := List (String × Value)

/-- `record[name]` (as an `Option`; a Python `KeyError` is `none`). -/
def recordGet (r : Record) (name : String) : Option Value :=
  (r.find? (fun kv => kv.1 == name)).map (fun kv => kv.2)

/-- The three `Searcher` subclasses of `eta/core/cli.py`. -/
inductive SearcherKind where
  | string | bytes | datetime
  deriving DecidableEq, Repr

/-- A `Searcher(name)` instance: its subclass and the record attribute it
reads (`self.name`). -/
structure Searcher where
  kind : SearcherKind
  name : String
  deriving DecidableEq, Repr

/-- `Searcher.contains(usr, rec)` per subclass in `eta/core/cli.py`:
`StringSearcher`: `str(usr) in str(rec)`; `BytesSearcher`:
`str(usr) in _render_bytes(rec)`; `DatetimeSearcher`:
`str(usr) in _render_datetime(rec)`. Branches a well-typed registry never
produces (a bytes searcher on a string value raises in Python) return
`false`. -/
def Searcher.contains (s : Searcher) (usr : String) (rec : Value) (tz : TZInfo) : Bool :=
  match s.kind, rec with
  | .string, v => pyIn usr (pyStr v)
  | .bytes, .vsize n => pyIn usr (render_bytes n)
  | .bytes, _ => false
  | .datetime, .vdt d =>
    match render_datetime (.dt d) tz with
    | some r => pyIn usr r
    | none => false
  | .datetime, .vstr s2 =>
    match render_datetime (.str s2) tz with
    | some r => pyIn usr r
    | none => false
  | .datetime, .vsize _ => false

/-- `Searcher.compare(usr, rec, op)` per subclass in `eta/core/cli.py`:
`StringSearcher`: `op(str(usr), str(rec))`; `BytesSearcher`:
`op(etau.from_human_bytes_str(usr), rec)`; `DatetimeSearcher`:
`op(_parse_datetime(usr), _parse_datetime(rec))`. An unparsable byte-size
literal raises in Python (fatal for the query); no claim exercises that
path and it is modelled as no-match, as are the type-mismatch branches a
well-typed registry never produces. -/
def Searcher.compare (s : Searcher) (usr : String) (rec : Value) (op : CmpOp) (tz : TZInfo) : Bool :=
  match s.kind, rec with
  | .string, v => op.applyStr usr (pyStr v)
  | .bytes, .vsize (some n) =>
    match fromHumanBytesStr usr with
    | some ub => op.applyInt ub n
    | none => false
  | .bytes, _ => false
  | .datetime, .vdt d => datetimeSearcherCompare usr (.dt d) op tz.offset
  | .datetime, .vstr s2 => datetimeSearcherCompare usr (.str s2) op tz.offset
  | .datetime, .vsize _ => false

/-- `searcher.contains(value, record[searcher.name])`: the missing-key
`KeyError` branch is never exercised (records carry their registry's
attributes, §3) and is modelled as no-match. -/
def Searcher.containsOpt (s : Searcher) (usr : String) (rec : Option Value) (tz : TZInfo) : Bool :=
  match rec with
  | some v => s.contains usr v tz
  | none => false

/-- `searcher.compare(value, record[searcher.name], op)`, with the
missing-key branch as in `Searcher.containsOpt`. -/
def Searcher.compareOpt (s : Searcher) (usr : String) (rec : Option Value) (op : CmpOp) (tz : TZInfo) : Bool :=
  match rec with
  | some v => s.compare usr v op tz
  | none => false

/-- A field registry (`*_SEARCH_FIELDS_MAP`): a dict mapping external field
names to searchers, in insertion order. -/
abbrev FieldMap := List (String × Searcher)

/-- `field_map.get(key)`. -/
def lookupField (fm : FieldMap) (key : String) : Option Searcher :=
  (fm.find? (fun kv => kv.1 == key)).map (fun kv => kv.2)

/-- `list(field_map)`: the registry's keys in order. -/
def fieldNames (fm : FieldMap) : List String :=
  fm.map (fun kv => kv.1)

/-- `{s.name: s for s in itervalues(field_map)}` followed by `.get(name)`:
on duplicate searcher names the dict comprehension keeps the last one. -/
def lookupByName (fm : FieldMap) (name : String) : Option Searcher :=
  ((fm.map (fun kv => kv.2)).reverse).find? (fun s => s.name == name)

/-- `_S3_SEARCH_FIELDS_MAP` from `eta/core/cli.py`. -/
def s3FieldMap : FieldMap :=
  [("bucket", ⟨.string, "bucket"⟩),
   ("name", ⟨.string, "object_name"⟩),
   ("size", ⟨.bytes, "size"⟩),
   ("type", ⟨.string, "mime_type"⟩),
   ("last_modified", ⟨.datetime, "last_modified"⟩)]

/-- `_GCS_SEARCH_FIELDS_MAP` from `eta/core/cli.py` (identical to S3's). -/
def gcsFieldMap : FieldMap := s3FieldMap

/-- `_GOOGLE_DRIVE_SEARCH_FIELDS_MAP` from `eta/core/cli.py`. -/
def googleDriveFieldMap : FieldMap :=
  [("id", ⟨.string, "id"⟩),
   ("name", ⟨.string, "name"⟩),
   ("size", ⟨.bytes, "size"⟩),
   ("type", ⟨.string, "mime_type"⟩),
   ("last_modified", ⟨.datetime, "last_modified"⟩)]

/-- The `KeyError`s the query parser raises, carrying the data their
messages interpolate (`"Invalid search '%s'; unsupported key '%s'
(normalized to '%s'); supported keys are %s"` and `"Invalid search '%s';
unsupported delimiter '%s'"`). `.malformed` is the unreachable unpacking
failure of a `max_splits=1` split (always one or three chunks). -/
inductive SearchError where
  | unknownField (searchStr key keyNormalized : String) (validKeys : List String)
  | unknownDelimiter (searchStr delimiter : String)
  | malformed
  deriving DecidableEq, Repr

/-- The errors `_filter_records` can raise: a query-parsing `KeyError` or
the sort-by `KeyError` (`"Invalid sort by field '%s' (normalized to '%s');
supported keys are %s"`). -/
inductive FilterError where
  | search (e : SearchError)
  | sortField (sortBy sortByNormalized : String) (validKeys : List String)
  deriving DecidableEq, Repr

/-- `_make_any_match_fcn(value, field_map)` from `eta/core/cli.py`: clean
the value, then match a record iff some key of the record names a
registered searcher whose `contains` accepts the record's value there.
(Dict keys are unique, so iterating pairs is iterating keys plus
indexing.) -/
def make_any_match_fcn (value : String) (fm : FieldMap) (tz : TZInfo) : Record → Bool :=
  let v := cleanValue value
  fun record =>
    record.any (fun kv =>
      match lookupByName fm kv.1 with
      | some searcher => searcher.contains v kv.2 tz
      | none => false)

/-- `_make_match_fcn(key, value, delimiter, field_map, search_str)` from
`eta/core/cli.py`: normalize the key, clean the value, look the key up in
the registry (unknown key: fatal `KeyError`); `":"` builds a `contains`
predicate, a comparison delimiter builds a `compare` predicate via
`_SEARCH_COMPARISON_OPERATORS` (unknown delimiter: fatal `KeyError`). -/
def make_match_fcn (key value delimiter : String) (fm : FieldMap) (searchStr : String)
    (tz : TZInfo) : Except SearchError (Record → Bool) :=
  match lookupField fm (pyNormalize key) with
  | none => .error (.unknownField searchStr key (pyNormalize key) (fieldNames fm))
  | some searcher =>
    if delimiter = ":" then
      .ok (fun record =>
        searcher.containsOpt (cleanValue value) (recordGet record searcher.name) tz)
    else
      match searchCompOp delimiter with
      | none => .error (.unknownDelimiter searchStr delimiter)
      | some op => .ok (fun record =>
          searcher.compareOpt (cleanValue value) (recordGet record searcher.name) op tz)

/-- Collect fallible results in order, stopping at the first error (how
`_filter_records` consumes the predicate generator: the first exception
raised while iterating aborts the query). -/
def collectExcept {ε α β : Type} (f : α → Except ε β) : List α → Except ε (List β)
  | [] => .ok []
  | a :: rest =>
    match f a with
    | .error e => .error e
    | .ok b =>
      match collectExcept f rest with
      | .error e => .error e
      | .ok bs => .ok (b :: bs)

/-- `_parse_search_str(search_str, field_map)` from `eta/core/cli.py`: split
into comma clauses; a clause with no unescaped delimiter is an any-field
predicate, otherwise key/delimiter/value build a typed predicate. The
Python generator raises lazily while `_filter_records` iterates it; the
first-error `Except` yields the same outcome. -/
def parse_search_str (searchStr : String) (fm : FieldMap) (tz : TZInfo) :
    Except SearchError (List (Record → Bool)) :=
  collectExcept (fun s =>
    match split_on_chars s ":=<>" 1 true with
    | [value] => .ok (make_any_match_fcn value fm tz)
    | [key, delimiter, value] => make_match_fcn key value delimiter fm searchStr tz
    | _ => .error .malformed)
    (split_on_chars searchStr "," 0 false)

/-- Ordering on record values used by `sorted`'s key comparison: same-type
values compare as in Python; `None` sizes sort below numbers; one sort key
never mixes types in practice. -/
def valueLe : Value → Value → Bool
  | .vstr a, .vstr b => pyStrLe a b
  | .vsize none, .vsize _ => true
  | .vsize (some _), .vsize none => false
  | .vsize (some a), .vsize (some b) => decide (a ≤ b)
  | .vdt a, .vdt b => decide (a.instant ≤ b.instant)
  | _, _ => false

/-- `sorted(records, key=lambda r: r[k], reverse=reverse)`: Python's sort is
a stable merge sort; `reverse=True` sorts descending, still keeping equal
keys in their original order. (The default value never surfaces: the
caller checks every record has the key first.) -/
def pySorted (records : List Record) (k : String) (reverse : Bool) : List Record :=
  let keyv := fun r => (recordGet r k).getD (.vstr "")
  records.mergeSort (fun a b =>
    if reverse then valueLe (keyv b) (keyv a) else valueLe (keyv a) (keyv b))

/-- `_filter_records(records, limit, search_str, sort_by, ascending,
field_map)` from `eta/core/cli.py`. `search_str` and `sort_by` are optional
in Python (`if search_str:` / `if sort_by:` truthiness); the empty string
plays `None`'s role here. The sort's `KeyError` fires iff some record
lacks the normalized key (`sorted` evaluates `r[k]` on every record). -/
def filter_records (records : List Record) (limit : Int) (searchStr : String)
    (sortBy : String) (ascending : Bool) (fm : FieldMap) (tz : TZInfo) :
    Except FilterError (List Record) :=
  let filtered : Except SearchError (List Record) :=
    if searchStr ≠ "" then
      match parse_search_str searchStr fm tz with
      | .error e => .error e
      | .ok preds => .ok (preds.foldl (fun rs p => rs.filter p) records)
    else .ok records
  match filtered with
  | .error e => .error (.search e)
  | .ok records1 =>
    let rev := !ascending
    let ordered : Except FilterError (List Record) :=
      if sortBy ≠ "" then
        let sbn := pyNormalize sortBy
        if records1.all (fun r => (recordGet r sbn).isSome) then
          .ok (pySorted records1 sbn rev)
        else
          .error (.sortField sortBy sbn (fieldNames fm))
      else
        .ok (if rev then records1.reverse else records1)
    match ordered with
    | .error e => .error e
    | .ok records2 =>
      if 0 < limit then .ok (records2.take limit.toNat) else .ok records2

instance {ε α : Type} [DecidableEq ε] [DecidableEq α] : DecidableEq (Except ε α) :=
  fun x y =>
    match x, y with
    | .ok a, .ok b => decidable_of_iff (a = b) (by simp)
    | .error a, .error b => decidable_of_iff (a = b) (by simp)
    | .ok _, .error _ => isFalse (fun h => by cases h)
    | .error _, .ok _ => isFalse (fun h => by cases h)

/-- A planned action for one relative path. -/
inductive SyncAction where
  | transfer | skip
  deriving DecidableEq, Repr

/-- The direction of a sync: `upload` is local → remote. -/
inductive SyncDirection where
  | upload | download
  deriving DecidableEq, Repr

/-- The source side of a sync (§4.5). -/
def syncSource (localPaths remotePaths : List String) : SyncDirection → List String
  | .upload => localPaths
  | .download => remotePaths

/-- The destination side of a sync (§4.5). -/
def syncDest (localPaths remotePaths : List String) : SyncDirection → List String
  | .upload => remotePaths
  | .download => localPaths

/-- Modelled from the spec: the planning step of the Directory Sync Engine
(`syncDir`, §4.5); the implementing module `eta/core/storage.py`
(`upload_dir_sync` / `download_dir_sync`) is not under `src/`, only its CLI
callers are. From the relative-path sets of the two sides, the direction
picks a source: source-only files are planned as Transfer; files on both
sides are Transfer iff `overwrite`, else Skip; destination-only files do
not appear in the plan at all (sync never deletes). -/
def syncDir (localPaths remotePaths : List String) (dir : SyncDirection)
    (overwrite : Bool) : List (String × SyncAction) :=
  let src := syncSource localPaths remotePaths dir
  let dst := syncDest localPaths remotePaths dir
  src.map (fun p =>
    (p, if !(dst.contains p) || overwrite then SyncAction.transfer else SyncAction.skip))

/-! ## Helper lemmas -/

/-- Filtering a list successively by each predicate keeps exactly the
elements satisfying all of them. -/
theorem foldl_filter {α : Type} (preds : List (α → Bool)) (records : List α) :
    preds.foldl (fun rs p => rs.filter p) records
      = records.filter (fun r => preds.all (fun p => p r)) := by
  induction preds generalizing records with
  | nil => simp
  | cons p ps ih =>
    simp only [List.foldl_cons, ih, List.filter_filter, List.all_cons]
    congr 1
    funext r
    exact Bool.and_comm _ _

/-- `consHead` on a one-chunk list. -/
theorem consHead_single (c : Char) (l : List Char) : consHead c [l] = [c :: l] := rfl

/-- A head character outside the delimiter class is consumed as text. -/
theorem goSplit_text_step (chars : List Char) (c : Char) (l : List Char) (prev : Option Char)
    (splits : Nat) (h : c ∉ chars) :
    goSplit chars (c :: l) prev splits false
      = consHead c (goSplit chars l (some c) splits false) := by
  rw [goSplit.eq_def]
  simp [h]

/-- A head character right after a backslash is consumed as text: the
lookbehind blocks a delimiter run from starting there. -/
theorem goSplit_escaped_step (chars : List Char) (c : Char) (l : List Char) (splits : Nat) :
    goSplit chars (c :: l) (some '\\') splits false
      = consHead c (goSplit chars l (some c) splits false) := by
  rw [goSplit.eq_def]
  simp

/-- Escaping all special characters of a backslash-free text and removing
the escapes again is the identity: exactly one backslash is stripped before
each escaped character. -/
theorem removeEscapes_escapeAll (t : List Char) (h : '\\' ∉ t) :
    removeEscapes escChars (escapeAll t) = t := by
  induction t with
  | nil => rfl
  | cons c rest ih =>
    have hc : c ≠ '\\' := fun heq => h (heq ▸ List.mem_cons_self c rest)
    have hrest : '\\' ∉ rest := fun hm => h (List.mem_cons_of_mem c hm)
    by_cases hm : c ∈ escChars
    · have he : escapeAll (c :: rest) = '\\' :: c :: escapeAll rest := by
        simp [escapeAll, hm]
      have hmc : escChars.contains c = true := by simpa [List.elem_eq_mem] using hm
      rw [he, removeEscapes.eq_def]
      simp [hmc, ih hrest]
      exact fun hmm => absurd hm hmm
    · have he : escapeAll (c :: rest) = c :: escapeAll rest := by
        simp [escapeAll, hm]
      rw [he, removeEscapes.eq_def]
      simp [hc, ih hrest]

/-- The split scanner never splits a fully-escaped text: every delimiter
occurrence is preceded by a backslash, so the lookbehind blocks it. -/
theorem goSplit_escapeAll (chars : List Char) (t : List Char) (splits : Nat)
    (hsub : ∀ c ∈ chars, c ∈ escChars) (ht : '\\' ∉ t) :
    ∀ prev, goSplit chars (escapeAll t) prev splits false = [escapeAll t] := by
  have hbs : '\\' ∉ chars := fun hmm => absurd (hsub '\\' hmm) (by decide)
  induction t with
  | nil => intro prev; rfl
  | cons c rest ih =>
    intro prev
    have hrest : '\\' ∉ rest := fun hm => ht (List.mem_cons_of_mem c hm)
    by_cases hm : c ∈ escChars
    · have he : escapeAll (c :: rest) = '\\' :: c :: escapeAll rest := by
        simp [escapeAll, hm]
      rw [he, goSplit_text_step chars '\\' _ prev splits hbs, goSplit_escaped_step,
        ih hrest (some c), consHead_single, consHead_single]
    · have hc : c ≠ '\\' := fun heq => ht (heq ▸ List.mem_cons_self c rest)
      have hcc : c ∉ chars := fun hmm => hm (hsub c hmm)
      have he : escapeAll (c :: rest) = c :: escapeAll rest := by
        simp [escapeAll, hm]
      rw [he, goSplit_text_step chars c _ prev splits hcc, ih hrest (some c), consHead_single]

/-! ## Claim theorems -/

/-- C1: a parsed `field<operator>value` clause dispatches exactly per the
operator table: `:` yields the field's `contains` predicate (never
`compare`); `==`/`<`/`<=`/`>`/`>=` yield `compare` with the relations
eq/gt/ge/lt/le respectively, invoked as `op(user-value, record-value)`;
concretely, `size<20MB` keeps a 10MB record and drops a 25MB one. -/
theorem C1_operator_dispatch :
    (∀ (key value searchStr : String) (fm : FieldMap) (tz : TZInfo) (srch : Searcher),
      lookupField fm (pyNormalize key) = some srch →
      make_match_fcn key value ":" fm searchStr tz
        = .ok (fun record =>
            srch.containsOpt (cleanValue value) (recordGet record srch.name) tz))
    ∧ (searchCompOp "==" = some .eq ∧ searchCompOp "<" = some .gt
        ∧ searchCompOp "<=" = some .ge ∧ searchCompOp ">" = some .lt
        ∧ searchCompOp ">=" = some .le ∧ searchCompOp ":" = none)
    ∧ (∀ (key value delim searchStr : String) (fm : FieldMap) (tz : TZInfo)
        (srch : Searcher) (op : CmpOp),
      lookupField fm (pyNormalize key) = some srch → searchCompOp delim = some op →
      make_match_fcn key value delim fm searchStr tz
        = .ok (fun record =>
            srch.compareOpt (cleanValue value) (recordGet record srch.name) op tz))
    ∧ filter_records
        [[("size", Value.vsize (some 10485760))], [("size", Value.vsize (some 26214400))]]
        (-1) "size<20MB" "" true s3FieldMap ⟨0, "UTC"⟩
        = .ok [[("size", Value.vsize (some 10485760))]] := by
  refine ⟨?_, by decide, ?_, by decide⟩
  · intro key value searchStr fm tz srch h
    simp [make_match_fcn, h]
  · intro key value delim searchStr fm tz srch op h hop
    have hd : delim ≠ ":" := by
      intro heq
      subst heq
      simp [searchCompOp] at hop
    simp [make_match_fcn, h, hd, hop]

/-- Witness for C1 at the `size` field of the S3 registry. -/
theorem C1_operator_dispatch_witness :
    make_match_fcn "size" "20MB" ":" s3FieldMap "size:20MB" ⟨0, "UTC"⟩
      = .ok (fun record =>
          Searcher.containsOpt ⟨.bytes, "size"⟩ (cleanValue "20MB")
            (recordGet record "size") ⟨0, "UTC"⟩)
    ∧ make_match_fcn "size" "20MB" "<" s3FieldMap "size<20MB" ⟨0, "UTC"⟩
      = .ok (fun record =>
          Searcher.compareOpt ⟨.bytes, "size"⟩ (cleanValue "20MB")
            (recordGet record "size") .gt ⟨0, "UTC"⟩) :=
  ⟨C1_operator_dispatch.1 "size" "20MB" "size:20MB" s3FieldMap ⟨0, "UTC"⟩ ⟨.bytes, "size"⟩ rfl,
   C1_operator_dispatch.2.2.1 "size" "20MB" "<" "size<20MB" s3FieldMap ⟨0, "UTC"⟩
     ⟨.bytes, "size"⟩ .gt rfl rfl⟩

/-- C2: the claim says a `sort_by` naming a canonical registry field sorts
by the bound record attribute, and only other names raise. The code instead
indexes records by the normalized `sort_by` itself: for the S3 registry the
field `type` is bound to attribute `mime_type`, records carry `mime_type`,
yet sorting by `type` raises the `KeyError` whose own message lists `type`
among the supported keys — the failing input evaluated here. -/
theorem C2_sort_lookup_bug :
    filter_records
      [[("bucket", Value.vstr "b"), ("object_name", Value.vstr "x"),
        ("size", Value.vsize (some 1)), ("mime_type", Value.vstr "text/plain"),
        ("last_modified", Value.vdt ⟨1500000000, some 0⟩)]]
      (-1) "" "type" true s3FieldMap ⟨0, "UTC"⟩
      = .error (.sortField "type" "type" ["bucket", "name", "size", "type", "last_modified"])
    ∧ "type" ∈ fieldNames s3FieldMap
    ∧ lookupField s3FieldMap "type" = some ⟨.string, "mime_type"⟩
    ∧ recordGet
        [("bucket", Value.vstr "b"), ("object_name", Value.vstr "x"),
         ("size", Value.vsize (some 1)), ("mime_type", Value.vstr "text/plain"),
         ("last_modified", Value.vdt ⟨1500000000, some 0⟩)] "mime_type"
        = some (Value.vstr "text/plain") := by
  refine ⟨by decide, by decide, rfl, rfl⟩

/-- C3: with a search expression the pipeline keeps exactly the records on
which every comma clause's predicate holds (order preserved), and a
bare-literal clause holds of a record iff some registered field's value
contains the literal (a clause with no unescaped delimiter parses to that
any-field predicate). -/
theorem C3_and_filter_semantics :
    (∀ (fm : FieldMap) (tz : TZInfo) (records : List Record) (s : String)
        (preds : List (Record → Bool)) (limit : Int),
      s ≠ "" → limit ≤ 0 → parse_search_str s fm tz = .ok preds →
      filter_records records limit s "" true fm tz
        = .ok (records.filter (fun r => preds.all (fun p => p r))))
    ∧ (∀ (value : String) (fm : FieldMap) (tz : TZInfo) (record : Record),
      make_any_match_fcn value fm tz record = true ↔
        ∃ kv ∈ record, ∃ srch, lookupByName fm kv.1 = some srch
          ∧ srch.contains (cleanValue value) kv.2 tz = true)
    ∧ (∀ (s : String) (fm : FieldMap) (tz : TZInfo),
      split_on_chars s "," 0 false = [s] → split_on_chars s ":=<>" 1 true = [s] →
      parse_search_str s fm tz = .ok [make_any_match_fcn s fm tz]) := by
  refine ⟨?_, ?_, ?_⟩
  · intro fm tz records s preds limit hs hl hp
    have hnl : ¬ (0 < limit) := by omega
    simp [filter_records, hs, hp, hnl, foldl_filter]
  · intro value fm tz record
    simp only [make_any_match_fcn, List.any_eq_true]
    constructor
    · rintro ⟨kv, hkv, hp⟩
      refine ⟨kv, hkv, ?_⟩
      cases hl : lookupByName fm kv.1 with
      | none => rw [hl] at hp; cases hp
      | some srch =>
        rw [hl] at hp
        exact ⟨srch, rfl, hp⟩
    · rintro ⟨kv, hkv, srch, hl, hc⟩
      refine ⟨kv, hkv, ?_⟩
      rw [hl]
      exact hc
  · intro s fm tz h1 h2
    simp [parse_search_str, h1, collectExcept, h2]

/-- Witness for C3 on a one-clause bare-literal query. -/
theorem C3_and_filter_semantics_witness :
    filter_records [[("size", Value.vsize none)]] (-1) "x" "" true s3FieldMap ⟨0, "UTC"⟩
      = .ok ([[("size", Value.vsize none)]].filter
          (fun r => [make_any_match_fcn "x" s3FieldMap ⟨0, "UTC"⟩].all (fun p => p r))) :=
  C3_and_filter_semantics.1 s3FieldMap ⟨0, "UTC"⟩ [[("size", Value.vsize none)]] "x"
    [make_any_match_fcn "x" s3FieldMap ⟨0, "UTC"⟩] (-1) (by decide) (by decide) rfl

/-- C4: escaped delimiters are never split on, and exactly one backslash is
stripped before each escaped character in the final literal: a fully
escaped text round-trips through `remove_escapes` and survives any split
unsplit; concretely, `a\,b` is one clause, `a\,b,c` splits only at the
unescaped comma, the escaped comma reaches the literal as `,`, and the
clause parses to a single any-field predicate. -/
theorem C4_escaping :
    (∀ t : List Char, '\\' ∉ t → removeEscapes escChars (escapeAll t) = t)
    ∧ (∀ (chars : List Char) (t : List Char) (m : Nat), (∀ c ∈ chars, c ∈ escChars) →
        '\\' ∉ t → pyReSplit chars m (escapeAll t) = [escapeAll t])
    ∧ split_on_chars "a\\,b" "," 0 false = ["a\\,b"]
    ∧ split_on_chars "a\\,b,c" "," 0 false = ["a\\,b", "c"]
    ∧ cleanValue "a\\,b" = "a,b"
    ∧ parse_search_str "a\\,b" s3FieldMap ⟨0, "UTC"⟩
        = .ok [make_any_match_fcn "a\\,b" s3FieldMap ⟨0, "UTC"⟩] := by
  refine ⟨removeEscapes_escapeAll, ?_, by decide, by decide, by decide, rfl⟩
  intro chars t m hsub ht
  exact goSplit_escapeAll chars t _ hsub ht none

/-- Witness for C4 at the text `a,b` escaped to `a\,b`. -/
theorem C4_escaping_witness :
    removeEscapes escChars (escapeAll "a,b".data) = "a,b".data
    ∧ pyReSplit ",".data 0 (escapeAll "a,b".data) = [escapeAll "a,b".data] :=
  ⟨C4_escaping.1 "a,b".data (by decide),
   C4_escaping.2.1 ",".data "a,b".data 0 (by decide) (by decide)⟩

/-- C5: the sync plan transfers a path iff it is in the source and either
absent from the destination or `overwrite` is set; it skips a path iff it
is on both sides without `overwrite`; the planned paths are exactly the
source paths, so destination-only files are never touched. The spec's
scenario over `{a.txt, b.txt}` / `{b.txt, c.txt}` evaluates as stated. -/
theorem C5_sync_plan :
    (∀ (L R : List String) (dir : SyncDirection) (ow : Bool) (p : String),
      (p, SyncAction.transfer) ∈ syncDir L R dir ow ↔
        p ∈ syncSource L R dir ∧ (p ∉ syncDest L R dir ∨ ow = true))
    ∧ (∀ (L R : List String) (dir : SyncDirection) (ow : Bool) (p : String),
      (p, SyncAction.skip) ∈ syncDir L R dir ow ↔
        p ∈ syncSource L R dir ∧ p ∈ syncDest L R dir ∧ ow = false)
    ∧ (∀ (L R : List String) (dir : SyncDirection) (ow : Bool) (p : String),
      p ∈ (syncDir L R dir ow).map Prod.fst ↔ p ∈ syncSource L R dir)
    ∧ syncDir ["a.txt", "b.txt"] ["b.txt", "c.txt"] .upload false
        = [("a.txt", .transfer), ("b.txt", .skip)]
    ∧ syncDir ["a.txt", "b.txt"] ["b.txt", "c.txt"] .upload true
        = [("a.txt", .transfer), ("b.txt", .transfer)]
    ∧ "c.txt" ∉ (syncDir ["a.txt", "b.txt"] ["b.txt", "c.txt"] .upload false).map Prod.fst
    ∧ "c.txt" ∉ (syncDir ["a.txt", "b.txt"] ["b.txt", "c.txt"] .upload true).map Prod.fst := by
  refine ⟨?_, ?_, ?_, by decide, by decide, by decide, by decide⟩
  · intro L R dir ow p
    simp only [syncDir, List.mem_map, Prod.mk.injEq]
    constructor
    · rintro ⟨q, hq, heq, hact⟩
      subst heq
      refine ⟨hq, ?_⟩
      by_cases hd : q ∈ syncDest L R dir <;> by_cases how : ow = true <;>
        simp_all [List.elem_eq_mem]
    · rintro ⟨hp, hcase⟩
      refine ⟨p, hp, rfl, ?_⟩
      rcases hcase with hnd | how
      · simp [List.elem_eq_mem, hnd]
      · simp [List.elem_eq_mem, how]
  · intro L R dir ow p
    simp only [syncDir, List.mem_map, Prod.mk.injEq]
    constructor
    · rintro ⟨q, hq, heq, hact⟩
      subst heq
      by_cases hd : q ∈ syncDest L R dir <;> by_cases how : ow = true <;>
        simp_all [List.elem_eq_mem]
    · rintro ⟨hp, hd, how⟩
      refine ⟨p, hp, rfl, ?_⟩
      simp [List.elem_eq_mem, hd, how]
  · intro L R dir ow p
    simp [syncDir, List.mem_map]

/-- C6: with no sort key, the pipeline reverses the filtered listing order
when `ascending` is false (the default) and leaves it unchanged when
`ascending` is true. -/
theorem C6_default_order (records : List Record) (limit : Int) (asc : Bool)
    (fm : FieldMap) (tz : TZInfo) (h : limit ≤ 0) :
    filter_records records limit "" "" asc fm tz
      = .ok (if asc then records else records.reverse) := by
  have hl : ¬ (0 < limit) := by omega
  cases asc <;> simp [filter_records, hl]

/-- Witness for C6 at a one-record listing with the CLI's default limit. -/
theorem C6_default_order_witness :
    filter_records [[("size", Value.vsize none)]] (-1) "" "" false s3FieldMap ⟨0, "UTC"⟩
      = .ok [[("size", Value.vsize none)]] :=
  C6_default_order [[("size", Value.vsize none)]] (-1) false s3FieldMap ⟨0, "UTC"⟩ (by decide)

/-- C7: a positive `limit` truncates to the first `limit` records; a zero
or negative `limit` returns the sequence unchanged. -/
theorem C7_limit (records : List Record) (limit : Int) (fm : FieldMap) (tz : TZInfo) :
    filter_records records limit "" "" true fm tz
      = .ok (if 0 < limit then records.take limit.toNat else records) := by
  by_cases hl : 0 < limit <;> simp [filter_records, hl]

/-- C8: a clause whose normalized field name is not a registry key builds
the fatal `KeyError` carrying the query, the original and normalized
spelling, and the registry's field names; any parse error makes the whole
pipeline return that error and no record list. -/
theorem C8_unknown_field :
    (∀ (key value delim searchStr : String) (fm : FieldMap) (tz : TZInfo),
      lookupField fm (pyNormalize key) = none →
      make_match_fcn key value delim fm searchStr tz
        = .error (.unknownField searchStr key (pyNormalize key) (fieldNames fm)))
    ∧ (∀ (records : List Record) (limit : Int) (sortBy : String) (asc : Bool)
        (fm : FieldMap) (tz : TZInfo) (s : String) (e : SearchError),
      parse_search_str s fm tz = .error e →
      filter_records records limit s sortBy asc fm tz = .error (.search e))
    ∧ filter_records [[("size", Value.vsize none)]] (-1) "badfield:foo" "" true s3FieldMap ⟨0, "UTC"⟩
        = .error (.search (.unknownField "badfield:foo" "badfield" "badfield"
            ["bucket", "name", "size", "type", "last_modified"])) := by
  refine ⟨?_, ?_, by decide⟩
  · intro key value delim searchStr fm tz h
    simp [make_match_fcn, h]
  · intro records limit sortBy asc fm tz s e h
    by_cases hs : s = ""
    · subst hs
      have hok : parse_search_str "" fm tz = .ok [make_any_match_fcn "" fm tz] := rfl
      rw [hok] at h
      simp at h
    · simp [filter_records, hs, h]

/-- Witness for C8 at the field name `badfield` against the S3 registry. -/
theorem C8_unknown_field_witness :
    make_match_fcn "badfield" "foo" ":" s3FieldMap "badfield:foo" ⟨0, "UTC"⟩
      = .error (.unknownField "badfield:foo" "badfield" (pyNormalize "badfield")
          (fieldNames s3FieldMap))
    ∧ filter_records [] (-1) "badfield:foo" "" true s3FieldMap ⟨0, "UTC"⟩
      = .error (.search (.unknownField "badfield:foo" "badfield" "badfield"
          ["bucket", "name", "size", "type", "last_modified"])) :=
  ⟨C8_unknown_field.1 "badfield" "foo" ":" "badfield:foo" s3FieldMap ⟨0, "UTC"⟩ rfl,
   C8_unknown_field.2.1 [] (-1) "" true s3FieldMap ⟨0, "UTC"⟩ "badfield:foo"
     (.unknownField "badfield:foo" "badfield" "badfield"
       ["bucket", "name", "size", "type", "last_modified"]) rfl⟩

/-- C9: a Datetime comparison converts both the parsed user literal and the
record timestamp to the local timezone and then applies the relation as
`op(user, record)` on instants; conversion honors an explicit offset as-is
(the instant is unchanged) and assumes the local timezone for a naive
value (its wall clock is read as local time). -/
theorem C9_datetime_localization :
    ∀ (tz : Int) (usr : String) (u : PyDatetime) (rec : DtOrStr) (rd : PyDatetime) (op : CmpOp),
      isoparse usr = some u →
      parse_datetime rec tz = some rd →
      (datetimeSearcherCompare usr rec op tz
          = op.applyInt (astimezoneLocal u tz).instant rd.instant)
      ∧ (astimezoneLocal u tz).offset = some tz
      ∧ rd.offset = some tz
      ∧ (∀ (d : PyDatetime) (o : Int), d.offset = some o →
          (astimezoneLocal d tz).instant = d.wall - o)
      ∧ (∀ d : PyDatetime, d.offset = none → (astimezoneLocal d tz).instant = d.wall - tz) := by
  intro tz usr u rec rd op hu hrec
  have husr : parse_datetime (.str usr) tz = some (astimezoneLocal u tz) := by
    simp [parse_datetime, hu]
  refine ⟨?_, ?_, ?_, ?_, ?_⟩
  · simp [datetimeSearcherCompare, hrec, husr]
  · cases h : u.offset <;> simp [astimezoneLocal, h]
  · rcases rec with d | s
    · simp only [parse_datetime, Option.some.injEq] at hrec
      subst hrec
      cases h : d.offset <;> simp [astimezoneLocal, h]
    · simp only [parse_datetime, Option.map_eq_some'] at hrec
      obtain ⟨d, _, rfl⟩ := hrec
      cases h : d.offset <;> simp [astimezoneLocal, h]
  · intro d o h
    simp only [astimezoneLocal, h, PyDatetime.instant, Option.getD_some]
    omega
  · intro d h
    simp [astimezoneLocal, h, PyDatetime.instant]

/-- Witness for C9: the literal `2020-01-01` (naive) against a record
timestamped `2019-12-31T23:00:00-05:00`, local zone UTC-5. -/
theorem C9_datetime_localization_witness :
    datetimeSearcherCompare "2020-01-01" (.dt ⟨1577833200, some (-18000)⟩) .gt (-18000)
      = CmpOp.applyInt .gt (astimezoneLocal ⟨1577836800, none⟩ (-18000)).instant
          (⟨1577833200, some (-18000)⟩ : PyDatetime).instant
    ∧ (astimezoneLocal ⟨1577836800, none⟩ (-18000)).offset = some (-18000) := by
  have h := C9_datetime_localization (-18000) "2020-01-01" ⟨1577836800, none⟩
    (.dt ⟨1577833200, some (-18000)⟩) ⟨1577833200, some (-18000)⟩ .gt rfl rfl
  exact ⟨h.1, h.2.1⟩

/-- C10: an absent (`None`) or negative size renders as the fixed string
`"-"`, so a `size:` contains clause or a bare literal matched against the
size field holds of such a record iff the search string is a substring of
`"-"`. -/
theorem C10_absent_size :
    (render_bytes none = "-")
    ∧ (∀ n : Int, n < 0 → render_bytes (some n) = "-")
    ∧ (∀ (usr : String) (tz : TZInfo),
        Searcher.contains ⟨.bytes, "size"⟩ usr (.vsize none) tz = pyIn usr "-")
    ∧ (∀ (usr : String) (tz : TZInfo) (n : Int), n < 0 →
        Searcher.contains ⟨.bytes, "size"⟩ usr (.vsize (some n)) tz = pyIn usr "-")
    ∧ (∀ (value : String) (tz : TZInfo),
        make_any_match_fcn value s3FieldMap tz [("size", Value.vsize none)]
          = pyIn (cleanValue value) "-") := by
  refine ⟨rfl, ?_, ?_, ?_, ?_⟩
  · intro n h
    simp [render_bytes, h]
  · intro usr tz
    rfl
  · intro usr tz n h
    exact congrArg (pyIn usr) (by simp [render_bytes, h])
  · intro value tz
    exact Bool.or_false _

/-- Witness for C10 at the size −5 and the literal `x`. -/
theorem C10_absent_size_witness :
    render_bytes (some (-5)) = "-"
    ∧ Searcher.contains ⟨.bytes, "size"⟩ "x" (.vsize (some (-5))) ⟨0, "UTC"⟩ = pyIn "x" "-"
    ∧ make_any_match_fcn "x" s3FieldMap ⟨0, "UTC"⟩ [("size", Value.vsize none)]
      = pyIn (cleanValue "x") "-" :=
  ⟨C10_absent_size.2.1 (-5) (by decide),
   C10_absent_size.2.2.2.1 "x" ⟨0, "UTC"⟩ (-5) (by decide),
   C10_absent_size.2.2.2.2 "x" ⟨0, "UTC"⟩⟩

end Eta
